import Mathlib

/-!
Shallow embedding of the GoSignal event-sourcing library core
(repository, SafeApply helper, message dispatch loop, in-memory queue),
translated from the Go sources, together with theorems settling the
frozen claims about the natural-language specification.

Go conventions used throughout the embedding:
* Go errors are modelled by `GoErr`; `errors.Join(a, b, ...)` becomes
  `GoErr.join [a, b, ...]`, `errors.New` / `fmt.Errorf` become
  `GoErr.errorf`.
* Pointer-typed optional values (`*uint64`, `*Snapshot`) become `Option`.
* Mutation through pointers becomes explicit state passing: a function
  that mutates its receiver returns the new value.
* Calls to collaborators (event store, snapshot store, queue, aggregate)
  are recorded in an explicit effect trace so that claims about which
  collaborator was invoked, with which arguments and in which order, can
  be stated.
* A Go runtime panic that can escape a function is modelled by a
  dedicated outcome constructor; `recover()` converts it back to a value.
* Go `uint` / `uint64` arithmetic wraps modulo 2^64; the wrap is written
  out explicitly (`% U64`) at the one site where the code increments a
  version.
-/

namespace GoSignal

/-- Byte strings (`[]byte`). -/
abbrev Bytes := List Nat

/-- Go `uint64` modulus. -/
def U64 : Nat := 2 ^ 64

/-- Go errors: a leaf created by `errors.New` / `fmt.Errorf`, or an
`errors.Join` of several errors. -/
inductive GoErr where
  | errorf (msg : String)
  | join (es : List GoErr)

/-- `gosignal.Event` (event.go): an immutable record of one state change. -/
structure Event where
  type : String
  data : Bytes
  version : Nat
  timestamp : Int
  aggregateID : String
deriving Repr, DecidableEq

/-! ## Sentinel errors (sourcing package) -/

def ErrEventVersionNE : GoErr := .errorf "event version is not equal to the aggregate version"
def ErrApplyFailed : GoErr := .errorf "failed to apply event"
def ErrLoadingEvents : GoErr := .errorf "error loading events"
def ErrApplyingEvent : GoErr := .errorf "error applying event"
def ErrReplacingVersion : GoErr := .errorf "error replacing version"
def ErrNoEvents : GoErr := .errorf "no events found"
def ErrVersionNotFound : GoErr := .errorf "version not found"
def ErrStoringEvents : GoErr := .errorf "error storing events"
def ErrNoQueueDefined : GoErr := .errorf "no queue defined"
def ErrSendingEvent : GoErr := .errorf "error sending event"
def ErrFailedToLoadSnapshot : GoErr := .errorf "failed to load snapshot"
def ErrSnapshotFailed : GoErr := .errorf "snapshot failed"
def ErrFailedToExportState : GoErr := .errorf "failed to export state"

/-! ## SafeApply (sourcing/aggregate.go)

`SafeApply(event, agg, applyFn)` checks the event version against the
aggregate version, invokes the user-supplied apply function, and installs
a `defer`/`recover` guard.  The aggregate is touched only through
`GetVersion`/`SetVersion`, so it is modelled by its version number plus a
flag recording whether `SetVersion` was called. -/

/-- Outcome of invoking the user-supplied apply function: return `nil`,
return an error, or panic. -/
inductive ApplyOutcome where
  | ok
  | err (e : GoErr)
  | panicked (msg : String)

/-- Which branch of `SafeApply` produced the error.
`versionNE a b` is the `errors.Join(ErrEventVersionNE, fmt.Errorf("event
version: %d, aggregate version: %d", ...))` branch carrying both the event
version `a` and the aggregate version `b`; `applyErr` is an error returned
by the apply function; `panicRecovered` is a panic converted by the
`recover()` guard into `fmt.Errorf("panic: %v", r)`. -/
inductive SafeErr where
  | versionNE (eventVer aggVer : Nat)
  | applyErr (e : GoErr)
  | panicRecovered (msg : String)

/-- The deferred guard in `SafeApply` wraps every error as
`errors.Join(fmt.Errorf("event: %q", event.Type), ErrApplyFailed, err)`.
This renders a `SafeErr` branch into the `GoErr` actually returned. -/
def renderSafeErr (eventType : String) : SafeErr → GoErr
  | .versionNE a b =>
      .join [.errorf ("event: \"" ++ eventType ++ "\""), ErrApplyFailed,
        .join [ErrEventVersionNE,
          .errorf ("event version: " ++ toString a ++ ", aggregate version: " ++ toString b)]]
  | .applyErr e =>
      .join [.errorf ("event: \"" ++ eventType ++ "\""), ErrApplyFailed, e]
  | .panicRecovered m =>
      .join [.errorf ("event: \"" ++ eventType ++ "\""), ErrApplyFailed,
        .errorf ("panic: " ++ m)]

/-- Result of `SafeApply`: the (structured) error if any, the aggregate
version after the call, and whether `agg.SetVersion` was invoked. -/
structure SafeApplyResult where
  error : Option SafeErr
  aggVersion : Nat
  setVersionCalled : Bool

/-- `SafeApply` (sourcing/aggregate.go).  Control flow of the source:

1. `canApplyEvent := event.Version == agg.GetVersion()`; if false, return
   the joined version-mismatch error.
2. invoke `applyFn(event)`; an error is returned as-is, a panic is caught
   by the deferred `recover()` and converted into an error — in both
   cases `SetVersion` is never reached.
3. on success call `agg.SetVersion(event.Version + 1)` (Go `uint64`
   addition, hence the wrap modulo `2^64`).

The deferred guard additionally wraps every non-nil error; that uniform
wrap is `renderSafeErr` above and is kept separate so that the branch
taken remains visible in the result. -/
def SafeApply (event : Event) (aggVersion : Nat) (applyFn : Event → ApplyOutcome) :
    SafeApplyResult :=
  if event.version = aggVersion then
    match applyFn event with
    | .ok => ⟨none, (event.version + 1) % U64, true⟩
    | .err e => ⟨some (.applyErr e), aggVersion, false⟩
    | .panicked m => ⟨some (.panicRecovered m), aggVersion, false⟩
  else
    ⟨some (.versionNE event.version aggVersion), aggVersion, false⟩

/-- C1 (counterexample): the claim says that on success `SafeApply` sets the
aggregate version to `e.Version + 1`, exactly one more.  The source performs
Go `uint64` addition, which wraps: at `e.Version = 2^64 - 1` with matching
aggregate version and a succeeding apply function, the version is set to `0`,
not to `e.Version + 1`. -/
theorem safeApply_increment_overflow_cx :
    (SafeApply ⟨"t", [], U64 - 1, 0, "a"⟩ (U64 - 1) (fun _ => ApplyOutcome.ok)).error
        = none
    ∧ (SafeApply ⟨"t", [], U64 - 1, 0, "a"⟩ (U64 - 1) (fun _ => ApplyOutcome.ok)).aggVersion
        ≠ (U64 - 1) + 1 := by
  constructor
  · simp [SafeApply]
  · simp only [SafeApply, if_pos rfl]
    norm_num [U64]

/-- C1 (amended): `SafeApply e a f` errors with the version-mismatch kind,
reporting both the event version and the aggregate version, if and only if
`e.Version ≠ a.GetVersion()`; when the versions are equal and `f e` succeeds
it sets the aggregate version to `(e.Version + 1) % 2^64` — exactly one more
whenever the addition does not wrap; and whenever it returns an error it has
not called `SetVersion`, so the aggregate version is unchanged. -/
theorem safeApply_version_discipline (e : Event) (v : Nat) (f : Event → ApplyOutcome) :
    ((∃ a b, (SafeApply e v f).error = some (.versionNE a b)) ↔ e.version ≠ v)
    ∧ (∀ a b, (SafeApply e v f).error = some (.versionNE a b) → a = e.version ∧ b = v)
    ∧ (e.version = v → f e = .ok →
        (SafeApply e v f).error = none
        ∧ (SafeApply e v f).aggVersion = (e.version + 1) % U64
        ∧ (SafeApply e v f).setVersionCalled = true)
    ∧ (∀ se, (SafeApply e v f).error = some se →
        (SafeApply e v f).setVersionCalled = false ∧ (SafeApply e v f).aggVersion = v) := by
  by_cases h : e.version = v
  · cases hf : f e <;> simp [SafeApply, h, hf]
  · simp [SafeApply, h]

/-- C1 witness: at event version 3 = aggregate version 3 with a succeeding
apply function, the aggregate version is advanced to 4. -/
theorem safeApply_version_discipline_witness :
    (SafeApply ⟨"t", [], 3, 0, "a"⟩ 3 (fun _ => ApplyOutcome.ok)).error = none
    ∧ (SafeApply ⟨"t", [], 3, 0, "a"⟩ 3 (fun _ => ApplyOutcome.ok)).aggVersion = (3 + 1) % U64
    ∧ (SafeApply ⟨"t", [], 3, 0, "a"⟩ 3 (fun _ => ApplyOutcome.ok)).setVersionCalled = true :=
  (safeApply_version_discipline ⟨"t", [], 3, 0, "a"⟩ 3 (fun _ => ApplyOutcome.ok)).2.2.1 rfl rfl

/-- C7: when the apply function's invocation panics, `SafeApply` does not
propagate the panic: the deferred `recover()` converts it into an error
carrying the panic value, and the deferred wrap joins it with the
`failed to apply event` sentinel.  (That `SafeApply` returns normally for
every apply function — including panicking ones — is expressed by its type:
it is a total function into `SafeApplyResult` even though `ApplyOutcome`
lets the apply function panic.) -/
theorem safeApply_recovers_from_apply_panic (e : Event) (v : Nat)
    (f : Event → ApplyOutcome) (m : String)
    (hv : e.version = v) (hp : f e = .panicked m) :
    (SafeApply e v f).error = some (.panicRecovered m)
    ∧ renderSafeErr e.type (.panicRecovered m)
        = .join [.errorf ("event: \"" ++ e.type ++ "\""), ErrApplyFailed,
            .errorf ("panic: " ++ m)] := by
  simp [SafeApply, hv, hp, renderSafeErr]

/-- C7 witness: a concrete apply function that panics with value `"kaboom"`
is converted into the recovered-panic error. -/
theorem safeApply_recovers_from_apply_panic_witness :
    (SafeApply ⟨"boom", [], 0, 0, "a"⟩ 0 (fun _ => ApplyOutcome.panicked "kaboom")).error
      = some (.panicRecovered "kaboom") :=
  (safeApply_recovers_from_apply_panic ⟨"boom", [], 0, 0, "a"⟩ 0
    (fun _ => ApplyOutcome.panicked "kaboom") "kaboom" rfl rfl).1

/-! ## MemoryQueue (drivers/queue/memory.go)

`MemoryQueue.Queue` is `map[string]map[uint]chan gosignal.QueueMessage`.
The registry is modelled as an association list from message type to the
list of subscription ids; a channel is identified by its subscription id
(each `Subscribe` call creates one fresh channel stored under one id).
A `nil` outer map behaves exactly like an empty registry for lookups, so
it is not distinguished.  `Send` returns the deliveries it performs: one
`(channel id, queue message)` pair per registered subscriber.  Channel
operations other than sends (there is only `close` in Go) are recorded in
a `QEffect` trace. -/

/-- The subscription registry: message type → subscription ids, in
insertion order. -/
abbrev Registry := List (String × List Nat)

/-- `mq.Queue[messageType]` two-valued map lookup. -/
def lookupType (reg : Registry) (messageType : String) : Option (List Nat) :=
  (reg.find? (fun p => p.1 == messageType)).map (fun p => p.2)

/-- `mq.Queue[messageType] = subs` map assignment. -/
def setTypeSubs (reg : Registry) (messageType : String) (subs : List Nat) : Registry :=
  if (reg.find? (fun p => p.1 == messageType)).isSome then
    reg.map (fun p => if p.1 == messageType then (p.1, subs) else p)
  else
    reg ++ [(messageType, subs)]

/-- The in-memory queue (drivers/queue/memory.go). -/
structure MemoryQueue where
  queue : Registry
deriving Repr, DecidableEq

/-- `MemoryQueueMessage`: the value sent on each subscriber channel; its
`Message()` accessor returns the `message` field and `Type()` the `mType`
field. -/
structure MemoryQueueMessage where
  message : Bytes
  mType : String
deriving Repr, DecidableEq

/-- Channel operations other than delivering a message.  The only one Go
could perform here is `close(ch)`; the translation of `Unsubscribe` below
shows it never does. -/
inductive QEffect where
  | closeChan (id : Nat)
deriving Repr, DecidableEq

/-- `MemoryQueue.Send`: error when the message type has no registry entry,
otherwise one delivery of the wrapped message to every registered channel. -/
def MemoryQueue.send (mq : MemoryQueue) (messageType : String) (message : Bytes) :
    Except GoErr (List (Nat × MemoryQueueMessage)) :=
  match lookupType mq.queue messageType with
  | none => .error (.errorf ("message type " ++ messageType ++ " not found"))
  | some subs => .ok (subs.map (fun id => (id, ⟨message, messageType⟩)))

/-- `MemoryQueue.Subscribe`: registers a fresh channel under a clock-derived
id (the id is a parameter here since it comes from `time.Now()`), returning
the id rendered as a string, the channel (identified by its id), and the
updated queue.  A colliding id overwrites the map entry, which in the
id-list model leaves the list unchanged. -/
def MemoryQueue.subscribe (mq : MemoryQueue) (messageType : String) (newId : Nat) :
    String × Nat × MemoryQueue :=
  let cur := (lookupType mq.queue messageType).getD []
  let cur2 := if cur.contains newId then cur else cur ++ [newId]
  (toString newId, newId, ⟨setTypeSubs mq.queue messageType cur2⟩)

/-- `strconv.Atoi` restricted to the unsigned decimal strings that
`Subscribe` produces as ids: parses a non-empty all-digit string, rejects
anything else.  (Go's `Atoi` also accepts a sign, which cannot occur in a
subscription id.) -/
def atoi (s : String) : Option Nat :=
  let ds := s.toList
  if ds.isEmpty ∨ ¬ ds.all (fun c => 48 ≤ c.toNat ∧ c.toNat ≤ 57) then none
  else some (ds.foldl (fun acc c => acc * 10 + (c.toNat - 48)) 0)

/-- `MemoryQueue.Unsubscribe`: errors when the message type or the id is
absent or the id fails to parse; on success it deletes the id from the
registry entry.  The Go body performs only `delete(mq.Queue[messageType],
uid)` — it never calls `close` on the channel, so the `QEffect` trace is
empty on every path. -/
def MemoryQueue.unsubscribe (mq : MemoryQueue) (messageType sid : String) :
    Option GoErr × MemoryQueue × List QEffect :=
  match lookupType mq.queue messageType with
  | none => (some (.errorf ("message type " ++ messageType ++ " not found")), mq, [])
  | some subs =>
    match atoi sid with
    | none => (some (.errorf ("id " ++ sid ++ " is not a valid id")), mq, [])
    | some uid =>
      if subs.contains uid then
        (none, ⟨setTypeSubs mq.queue messageType (subs.filter (fun i => i ≠ uid))⟩, [])
      else
        (some (.errorf ("id " ++ toString uid ++ " not found")), mq, [])

/-- C8 (evaluation at the failing input): starting from a queue whose only
subscription for type `"t"` is id 1, `Unsubscribe("t", "1")` succeeds and
removes the subscription from the registry, but performs no channel
operation: in particular it never closes the subscriber channel, contrary
to the claim (and to the spec's requirement that the queue MUST close the
channel so that a worker ranging over it terminates). -/
theorem memoryQueue_unsubscribe_no_close :
    ((MemoryQueue.mk [("t", [1])]).unsubscribe "t" "1").1 = none
    ∧ lookupType ((MemoryQueue.mk [("t", [1])]).unsubscribe "t" "1").2.1.queue "t" = some []
    ∧ ((MemoryQueue.mk [("t", [1])]).unsubscribe "t" "1").2.2 = [] := by
  refine ⟨rfl, rfl, rfl⟩

/-- C9 (counterexample): the claim says `Send` errors whenever no
subscription exists, including when every previous subscriber of the type
has unsubscribed.  In the source, `Unsubscribe` deletes only the inner map
entry and leaves `mq.Queue[messageType]` as an empty map, so a subsequent
`Send` succeeds and delivers to nobody. -/
theorem memoryQueue_send_after_unsubscribe_cx :
    lookupType ((((MemoryQueue.mk []).subscribe "t" 1).2.2.unsubscribe "t" "1").2.1).queue "t"
      = some []
    ∧ ((((MemoryQueue.mk []).subscribe "t" 1).2.2.unsubscribe "t" "1").2.1).send "t" [7]
      = .ok [] := by
  refine ⟨rfl, rfl⟩

/-- C9 (amended): `Send(messageType, message)` returns an error if and only
if the registry has no entry for `messageType` (no `Subscribe` for that
type has ever happened); when an entry exists, every currently registered
channel receives exactly one `QueueMessage` whose `Message()` equals the
sent bytes and whose `Type()` equals `messageType` — zero deliveries when
all subscribers of the type have unsubscribed. -/
theorem memoryQueue_send_characterization (mq : MemoryQueue)
    (messageType : String) (message : Bytes) :
    ((∃ e, mq.send messageType message = .error e)
        ↔ lookupType mq.queue messageType = none)
    ∧ (∀ subs, lookupType mq.queue messageType = some subs →
        mq.send messageType message
            = .ok (subs.map (fun id => (id, ⟨message, messageType⟩)))
        ∧ ∀ d ∈ subs.map (fun id => (id, (⟨message, messageType⟩ : MemoryQueueMessage))),
            d.2.message = message ∧ d.2.mType = messageType) := by
  cases h : lookupType mq.queue messageType <;> simp [MemoryQueue.send, h]

/-- C9 witness: with channels 1 and 2 subscribed to `"t"`, sending `[7]`
delivers exactly one message to each. -/
theorem memoryQueue_send_characterization_witness :
    (MemoryQueue.mk [("t", [1, 2])]).send "t" [7]
      = .ok [(1, ⟨[7], "t"⟩), (2, ⟨[7], "t"⟩)] :=
  ((memoryQueue_send_characterization (MemoryQueue.mk [("t", [1, 2])]) "t" [7]).2
    [1, 2] rfl).1

/-! ## MessageStream dispatch (message.go)

`processQueueMessage(qm, mr)` deserializes a queue message, asks the
receiver for a verdict, and gives the message exactly one disposition.
The queue message is modelled by the results its `Ack`/`Nack`/`Retry`
methods would return; the typed payload is an abstract type `μ` and the
`SerDe` result is the `deserialized` input (deserialization itself is an
external collaborator).  Everything the loop body does to the outside
world — calling the receiver, a disposition call, or a log line through
the configured logger — is recorded in a `DEffect` trace.  `logError` and
`logIfErrWithMsg` forward to the logger only when one is set; the model
assumes a logger is configured.  `time.Now().Add(time.Second)` is
modelled as `now + 1` with time counted in seconds. -/

/-- Observable actions of the dispatch loop body, in order. -/
inductive DEffect where
  | recvCall
  | ack
  | nack
  | retryCall (backoffUntil : Nat)
  | logErr (msg : String)
deriving Repr, DecidableEq

/-- A delivered queue message, modelled by the outcomes of its
disposition methods. -/
structure QMModel where
  messageBytes : Bytes
  attempts : Nat
  ackResult : Option GoErr
  nackResult : Option GoErr
  retryResult : Option GoErr

/-- `HandlerResult` is a Go `int`; unknown values beyond the three
constants are possible. -/
def HandlerResultSuccess : Int := 0
def HandlerResultRetry : Int := 1
def HandlerResultFail : Int := 2

/-- `logIfErrWithMsg(logger, err, msg)`: logs only when `err` is non-nil. -/
def logIfErrWithMsg (err : Option GoErr) (msg : String) : List DEffect :=
  match err with
  | none => []
  | some _ => [.logErr msg]

/-- Which effects are message dispositions (ack, nack, or retry). -/
def isDisposition : DEffect → Bool
  | .ack => true
  | .nack => true
  | .retryCall _ => true
  | _ => false

/-- The `switch result` statement at the end of `processQueueMessage`:
`Success` acks, `Retry` retries with `BackoffUntil =
time.Now().Add(time.Second)`, `Fail` nacks, and the `default` branch
nacks, logging "received unknown handler result" only when that nack
returned nil. -/
def dispositionSwitch (now : Nat) (qm : QMModel) (result : Int) : List DEffect :=
  if result = HandlerResultSuccess then
    DEffect.ack :: logIfErrWithMsg qm.ackResult "failed to ack message"
  else if result = HandlerResultRetry then
    DEffect.retryCall (now + 1) :: logIfErrWithMsg qm.retryResult "failed to retry message"
  else if result = HandlerResultFail then
    DEffect.nack :: logIfErrWithMsg qm.nackResult "failed to nack message"
  else
    DEffect.nack ::
      ((match qm.nackResult with
        | none => [DEffect.logErr "received unknown handler result"]
        | some _ => []) ++
        logIfErrWithMsg qm.nackResult "failed to nack message with unknown result")

/-- `MessageStream.processQueueMessage` (message.go): deserialize — a
failure logs and forces `result = HandlerResultFail` without calling the
receiver — then dispatch the verdict through the switch. -/
def processQueueMessage {μ : Type} (now : Nat) (qm : QMModel)
    (deserialized : Except GoErr μ) (receive : μ → Int) : List DEffect :=
  let step1 : Int × List DEffect :=
    match deserialized with
    | .error _ => (HandlerResultFail, [DEffect.logErr "failed to deserialize message"])
    | .ok m => (receive m, [DEffect.recvCall])
  step1.2 ++ dispositionSwitch now qm step1.1

theorem dispositionSwitch_filter (now : Nat) (qm : QMModel) (res : Int) :
    (dispositionSwitch now qm res).filter isDisposition
      = if res = HandlerResultSuccess then [DEffect.ack]
        else if res = HandlerResultRetry then [DEffect.retryCall (now + 1)]
        else [DEffect.nack] := by
  obtain ⟨mb, a, ar, nr, rr⟩ := qm
  unfold dispositionSwitch
  split_ifs <;> cases ar <;> cases nr <;> cases rr <;>
    simp [logIfErrWithMsg, isDisposition]

theorem dispositionSwitch_unknown_log (now : Nat) (qm : QMModel) (res : Int)
    (h0 : res ≠ HandlerResultSuccess) (h1 : res ≠ HandlerResultRetry)
    (h2 : res ≠ HandlerResultFail) (hn : qm.nackResult = none) :
    DEffect.logErr "received unknown handler result" ∈ dispositionSwitch now qm res := by
  simp [dispositionSwitch, h0, h1, h2, hn]

theorem recvCall_not_mem_dispositionSwitch (now : Nat) (qm : QMModel) (res : Int) :
    DEffect.recvCall ∉ dispositionSwitch now qm res := by
  obtain ⟨mb, a, ar, nr, rr⟩ := qm
  unfold dispositionSwitch
  split_ifs <;> cases ar <;> cases nr <;> cases rr <;>
    simp [logIfErrWithMsg]

/-- C6 (counterexample): the claim says an unrecognized handler result
always logs an unknown-handler-result error.  When `qm.Nack()` fails, the
source logs the nack failure instead: with a receiver returning the
unknown value 3 and a failing nack, the trace contains no
"received unknown handler result" entry. -/
theorem processQueueMessage_unknown_log_cx :
    processQueueMessage 0 ⟨[], 0, none, some (.errorf "nack refused"), none⟩
        (Except.ok ()) (fun _ => 3)
      = [.recvCall, .nack, .logErr "failed to nack message with unknown result"]
    ∧ DEffect.logErr "received unknown handler result"
        ∉ processQueueMessage 0 ⟨[], 0, none, some (.errorf "nack refused"), none⟩
            (Except.ok ()) (fun _ => 3) := by
  constructor
  · rfl
  · decide

/-- C6 (amended): every delivered queue message receives exactly one
disposition, chosen by the handler result: `Success` acknowledges,
`Retry` retries with `BackoffUntil` equal to one second after the current
time, `Fail` nacks, an unrecognized result nacks and — when that nack
succeeds — logs an unknown-handler-result error (a failing nack is logged
as a nack failure instead), and a deserialization failure is treated as
`Fail`: the message is nacked and the receiver is never called. -/
theorem processQueueMessage_dispositions {μ : Type} (now : Nat) (qm : QMModel)
    (deserialized : Except GoErr μ) (receive : μ → Int) :
    ((processQueueMessage now qm deserialized receive).filter isDisposition).length = 1
    ∧ (∀ m, deserialized = .ok m →
        (receive m = HandlerResultSuccess →
          (processQueueMessage now qm deserialized receive).filter isDisposition
            = [.ack])
        ∧ (receive m = HandlerResultRetry →
          (processQueueMessage now qm deserialized receive).filter isDisposition
            = [.retryCall (now + 1)])
        ∧ (receive m = HandlerResultFail →
          (processQueueMessage now qm deserialized receive).filter isDisposition
            = [.nack])
        ∧ (receive m ≠ HandlerResultSuccess → receive m ≠ HandlerResultRetry →
            receive m ≠ HandlerResultFail →
          (processQueueMessage now qm deserialized receive).filter isDisposition
            = [.nack]
          ∧ (qm.nackResult = none →
              DEffect.logErr "received unknown handler result"
                ∈ processQueueMessage now qm deserialized receive)))
    ∧ (∀ e, deserialized = .error e →
        (processQueueMessage now qm deserialized receive).filter isDisposition
          = [.nack]
        ∧ DEffect.recvCall ∉ processQueueMessage now qm deserialized receive) := by
  rcases deserialized with e | m
  · refine ⟨?_, ?_, ?_⟩
    · simp [processQueueMessage, List.filter_append, dispositionSwitch_filter,
        HandlerResultSuccess, HandlerResultRetry, HandlerResultFail, isDisposition]
    · intro m hm
      simp at hm
    · intro e0 he0
      refine ⟨?_, ?_⟩
      · simp [processQueueMessage, List.filter_append, dispositionSwitch_filter,
          HandlerResultSuccess, HandlerResultRetry, HandlerResultFail, isDisposition]
      · simp only [processQueueMessage, List.mem_append, List.mem_singleton]
        rintro (h | h)
        · cases h
        · exact recvCall_not_mem_dispositionSwitch now qm _ h
  · refine ⟨?_, ?_, ?_⟩
    case refine_3 => intro e he; simp at he
    case refine_1 =>
      simp only [processQueueMessage, List.filter_append, dispositionSwitch_filter]
      split_ifs <;> simp [isDisposition]
    case refine_2 =>
      intro m2 hm2
      injection hm2 with hm2; subst hm2
      refine ⟨fun hs => ?_, fun hr => ?_, fun hf => ?_,
        fun hn0 hn1 hn2 => ⟨?_, fun hnr => ?_⟩⟩
      · simp [processQueueMessage, List.filter_append, dispositionSwitch_filter,
          hs, isDisposition]
      · simp [processQueueMessage, List.filter_append, dispositionSwitch_filter,
          hr, HandlerResultSuccess, HandlerResultRetry, isDisposition]
      · simp [processQueueMessage, List.filter_append, dispositionSwitch_filter,
          hf, HandlerResultSuccess, HandlerResultRetry, HandlerResultFail,
          isDisposition]
      · simp [processQueueMessage, List.filter_append, dispositionSwitch_filter,
          hn0, hn1, hn2, isDisposition]
      · simp only [processQueueMessage, List.mem_append]
        exact Or.inr (dispositionSwitch_unknown_log now qm _ hn0 hn1 hn2 hnr)

/-- C6 witness: a successfully deserialized message whose receiver returns
`Success` is acked exactly once. -/
theorem processQueueMessage_dispositions_witness :
    (processQueueMessage 0 ⟨[], 0, none, none, none⟩ (Except.ok ())
        (fun _ => 0)).filter isDisposition = [DEffect.ack] :=
  ((processQueueMessage_dispositions 0 ⟨[], 0, none, none, none⟩ (Except.ok ())
    (fun _ => 0)).2.1 () rfl).1 rfl

/-! ## Repository (sourcing/repository.go)

Collaborators (event store, snapshot strategy/store, queue, aggregate)
are interfaces in Go; they are modelled as records of functions.  The
aggregate is a value of an abstract state type `α` manipulated through an
`AggOps α` record mirroring the `sourcing.Aggregate` interface; mutation
becomes explicit state passing.  Every call a repository method makes to
a collaborator is recorded in an `REffect` trace, in order.  Pointer
mutation of the caller's `RepoLoadOptions` (`opts.skipSnapshot = ...`,
`opts.lev.MinVersion = &newMinVersion`) is modelled by `Load` returning
the final options value alongside the aggregate. -/

/-- `sourcing.Snapshot`. -/
structure Snapshot where
  data : Bytes
  timestamp : Int
  version : Nat
  id : String
deriving Repr, DecidableEq

/-- `sourcing.LoadEventsOptions`: optional filters, `none` = no filter. -/
structure LoadEventsOptions where
  minVersion : Option Nat := none
  maxVersion : Option Nat := none
  eventTypes : List String := []
  fromTime : Option Int := none
  toTime : Option Int := none
deriving Repr, DecidableEq

/-- `sourcing.RepoLoadOptions` (config.go): the event filters plus the
`skipSnapshot` flag.  In Go `lev` is a pointer shared with the
configurator that built the options; the record here is the pointee. -/
structure RepoLoadOptions where
  lev : LoadEventsOptions := {}
  skipSnapshot : Bool := false
deriving Repr, DecidableEq

/-- `NewRepoLoaderConfigurator().Build()`: default options. -/
def defaultRepoLoadOptions : RepoLoadOptions := {}

/-- `NewRepoLoaderConfigurator().MaxVersion(v).Build()`. -/
def configuratorMaxVersion (v : Nat) : RepoLoadOptions :=
  { lev := { maxVersion := some v } }

/-- The `sourcing.Aggregate` interface over an abstract state type. -/
structure AggOps (α : Type) where
  getID : α → String
  setID : α → String → α
  getVersion : α → Nat
  setVersion : α → Nat → α
  applyEv : α → Event → Option GoErr × α
  importState : α → Bytes → Option GoErr × α
  exportState : α → Except GoErr Bytes

/-- The `sourcing.EventStore` interface. -/
structure EventStoreModel where
  load : String → LoadEventsOptions → Except GoErr (List Event)
  store : List Event → Option GoErr
  replace : String → Nat → Event → Option GoErr

/-- The `sourcing.SnapshotStore` interface (the parts `Repository`
uses).  `load` returns `none` for "no snapshot present"; `store` takes
the snapshot fields the repository computes (the `time.Now()` timestamp
is outside the model). -/
structure SnapshotStoreModel where
  load : String → Except GoErr (Option Snapshot)
  store : String → Bytes → Nat → String → Option GoErr

/-- The `sourcing.SnapshotStrategy` interface; `GetStore()` may return
nil. -/
structure SnapshotStrategyModel where
  shouldSnapshot : Option Snapshot → List Event → Bool
  getStore : Option SnapshotStoreModel

/-- `sourcing.Repository`: immutable configuration.  A `none` queue or
strategy is a nil interface field. -/
structure Repo where
  eventStore : EventStoreModel
  snapshotStrategy : Option SnapshotStrategyModel
  queueSend : Option (String → Bytes → Option GoErr)

/-- Calls the repository makes to its collaborators, in order. -/
inductive REffect where
  | ssLoad (aggID : String)
  | importState (data : Bytes)
  | setVersion (v : Nat)
  | setID (id : String)
  | esLoad (aggID : String) (opts : LoadEventsOptions)
  | applyEv (e : Event)
  | esStore (events : List Event)
  | qSend (msgType : String) (data : Bytes)
  | esReplace (aggID : String) (version : Nat) (e : Event)
  | ssStore (aggID : String) (version : Nat)

/-- The `for _, event := range events { r.queue.Send(...) }` loop in
`Repository.Store`: sends in slice order, stopping at the first failure,
which is wrapped with `ErrSendingEvent`. -/
def sendLoop (qs : String → Bytes → Option GoErr) : List Event → Option GoErr × List REffect
  | [] => (none, [])
  | e :: rest =>
    match qs e.type e.data with
    | some err => (some (.join [ErrSendingEvent, err]), [.qSend e.type e.data])
    | none =>
      let r := sendLoop qs rest
      (r.1, .qSend e.type e.data :: r.2)

/-- `Repository.Store` (repository.go): no queue → `ErrNoQueueDefined`
before touching the event store; then `EventStore.Store`, whose failure
is wrapped with `ErrStoringEvents`; then publish each event. -/
def Repo.storeM (r : Repo) (events : List Event) : Option GoErr × List REffect :=
  match r.queueSend with
  | none => (some ErrNoQueueDefined, [])
  | some qs =>
    match r.eventStore.store events with
    | some err => (some (.join [ErrStoringEvents, err]), [.esStore events])
    | none =>
      let s := sendLoop qs events
      (s.1, .esStore events :: s.2)

/-- `Repository.snapshotLoader`: nil strategy or nil store → `(nil, nil)`
without any call; otherwise `SnapshotStore.Load`, whose failure is wrapped
with `ErrFailedToLoadSnapshot`. -/
def Repo.snapshotLoader (r : Repo) (aggID : String) :
    Except GoErr (Option Snapshot) × List REffect :=
  match r.snapshotStrategy with
  | none => (.ok none, [])
  | some strat =>
    match strat.getStore with
    | none => (.ok none, [])
    | some ss =>
      match ss.load aggID with
      | .error e => (.error (.join [ErrFailedToLoadSnapshot, e]), [.ssLoad aggID])
      | .ok s => (.ok s, [.ssLoad aggID])

/-- `Repository.importState`: `agg.ImportState(snapshot.Data)` (failure
joined with `ErrFailedToLoadSnapshot`), then `SetVersion(snapshot.Version)`
and `SetID(snapshot.ID)`. -/
def importStateM {α : Type} (ops : AggOps α) (agg : α) (s : Snapshot) :
    Option GoErr × α × List REffect :=
  match ops.importState agg s.data with
  | (some e, agg1) => (some (.join [ErrFailedToLoadSnapshot, e]), agg1, [.importState s.data])
  | (none, agg1) =>
    let agg2 := ops.setVersion agg1 s.version
    let agg3 := ops.setID agg2 s.id
    (none, agg3, [.importState s.data, .setVersion s.version, .setID s.id])

/-- `Repository.ApplyEvents`: apply each event in order; a failing
`agg.Apply` is wrapped with `ErrApplyingEvent` and stops the loop. -/
def applyEventsM {α : Type} (ops : AggOps α) : α → List Event → Option GoErr × α × List REffect
  | agg, [] => (none, agg, [])
  | agg, e :: rest =>
    match ops.applyEv agg e with
    | (some err, agg1) => (some (.join [ErrApplyingEvent, err]), agg1, [.applyEv e])
    | (none, agg1) =>
      let r := applyEventsM ops agg1 rest
      (r.1, r.2.1, .applyEv e :: r.2.2)

/-- `Repository.generateSnapshot`: nil strategy or store → nothing;
otherwise export state and store a snapshot at the aggregate's current
version and id; both failure modes are wrapped with
`ErrFailedToExportState`. -/
def Repo.generateSnapshotM {α : Type} (r : Repo) (ops : AggOps α) (aggID : String) (agg : α) :
    Option GoErr × List REffect :=
  match r.snapshotStrategy with
  | none => (none, [])
  | some strat =>
    match strat.getStore with
    | none => (none, [])
    | some ss =>
      match ops.exportState agg with
      | .error e => (some (.join [ErrFailedToExportState, e]), [])
      | .ok state =>
        match ss.store aggID state (ops.getVersion agg) (ops.getID agg) with
        | some e => (some (.join [ErrFailedToExportState, e]), [.ssStore aggID (ops.getVersion agg)])
        | none => (none, [.ssStore aggID (ops.getVersion agg)])

/-- The boolean expression
`opts.lev.MaxVersion != nil && snapshot.Version > *opts.lev.MaxVersion`
(repository.go line 353).  `&&` short-circuits, so a nil `MaxVersion`
yields `false` without touching `snapshot`; but when `MaxVersion` is set
the code dereferences `snapshot`, which is a runtime panic when no
snapshot was loaded.  The panic message is carried in the `error` case. -/
def maxVerLowerCheck (maxVersion : Option Nat) (snapshot : Option Snapshot) :
    Except String Bool :=
  match maxVersion with
  | none => .ok false
  | some mv =>
    match snapshot with
    | none => .error "runtime error: invalid memory address or nil pointer dereference"
    | some s => .ok (decide (s.version > mv))

/-- Result of `Repository.Load`: normal return with the aggregate and the
final (caller-visible) options, an error return, or a runtime panic. -/
inductive GoOutcome (α : Type) where
  | ok (a : α)
  | err (e : GoErr)
  | panicked (msg : String)

/-- The tail of `Repository.Load` after the snapshot phase: load events
(`LoadEvents` wraps a store failure with `ErrLoadingEvents` and `Load`
wraps it again), return `ErrNoEvents` when there are no events and no
snapshot, apply the events (double-wrapped with `ErrApplyingEvent`), and
optionally generate a snapshot (`opts.skipSnapshot` or a nil strategy
skips it; a failure is wrapped with `ErrSnapshotFailed`). -/
def Repo.loadRest {α : Type} (r : Repo) (ops : AggOps α) (agg : α) (opts : RepoLoadOptions)
    (snapshot : Option Snapshot) : GoOutcome (α × RepoLoadOptions) × List REffect :=
  match r.eventStore.load (ops.getID agg) opts.lev with
  | .error e =>
    (.err (.join [ErrLoadingEvents, .join [ErrLoadingEvents, e]]),
      [.esLoad (ops.getID agg) opts.lev])
  | .ok events =>
    let trL : List REffect := [.esLoad (ops.getID agg) opts.lev]
    if events.isEmpty && snapshot.isNone then (.err ErrNoEvents, trL)
    else
      match applyEventsM ops agg events with
      | (some e, _, trA) => (.err (.join [ErrApplyingEvent, e]), trL ++ trA)
      | (none, agg1, trA) =>
        match r.snapshotStrategy with
        | none => (.ok (agg1, opts), trL ++ trA)
        | some strat =>
          if opts.skipSnapshot then (.ok (agg1, opts), trL ++ trA)
          else if strat.shouldSnapshot snapshot events then
            match r.generateSnapshotM ops (ops.getID agg1) agg1 with
            | (some e, trS) => (.err (.join [ErrSnapshotFailed, e]), trL ++ trA ++ trS)
            | (none, trS) => (.ok (agg1, opts), trL ++ trA ++ trS)
          else (.ok (agg1, opts), trL ++ trA)

/-- `Repository.Load` (repository.go): resolve nil options to the default;
load a snapshot unless `skipSnapshot`; evaluate the max-version-vs-snapshot
check (which panics when `MaxVersion` is set and no snapshot was loaded);
`opts.skipSnapshot ||= maxVerLowerThanSnapshot`; when the snapshot is used,
set `opts.lev.MinVersion = snapshot.Version` and populate the aggregate via
`importState` (a failure is wrapped once more with
`ErrFailedToLoadSnapshot`); then continue with `loadRest`. -/
def Repo.loadM {α : Type} (r : Repo) (ops : AggOps α) (agg : α)
    (opts0 : Option RepoLoadOptions) : GoOutcome (α × RepoLoadOptions) × List REffect :=
  let opts := opts0.getD defaultRepoLoadOptions
  let snapStep :=
    if opts.skipSnapshot then ((.ok none : Except GoErr (Option Snapshot)), ([] : List REffect))
    else r.snapshotLoader (ops.getID agg)
  match snapStep with
  | (.error e, tr1) => (.err e, tr1)
  | (.ok snapshot, tr1) =>
    match maxVerLowerCheck opts.lev.maxVersion snapshot with
    | .error panicMsg => (.panicked panicMsg, tr1)
    | .ok maxVerLower =>
      let opts1 : RepoLoadOptions :=
        { opts with skipSnapshot := opts.skipSnapshot || maxVerLower }
      match (if maxVerLower then none else snapshot) with
      | some s =>
        let opts2 : RepoLoadOptions :=
          { opts1 with lev := { opts1.lev with minVersion := some s.version } }
        match importStateM ops agg s with
        | (some e, _, tr2) => (.err (.join [ErrFailedToLoadSnapshot, e]), tr1 ++ tr2)
        | (none, agg1, tr2) =>
          let rest := r.loadRest ops agg1 opts2 snapshot
          (rest.1, tr1 ++ tr2 ++ rest.2)
      | none =>
        let rest := r.loadRest ops agg opts1 snapshot
        (rest.1, tr1 ++ rest.2)

/-- `Repository.replaceVersionInEventSlice`: replace the first event whose
`Version` equals `v` in place; `ErrVersionNotFound` when none matches. -/
def replaceVersionInEventSlice (events : List Event) (v : Nat) (e : Event) :
    Except GoErr (List Event) :=
  match events with
  | [] => .error ErrVersionNotFound
  | ev :: rest =>
    if ev.version = v then .ok (e :: rest)
    else
      match replaceVersionInEventSlice rest v e with
      | .ok l => .ok (ev :: l)
      | .error err => .error err

/-- `Repository.ReplaceVersion` (repository.go): load the events up to and
including `v` (`LoadEvents` wraps a failure with `ErrLoadingEvents`, then
`ReplaceVersion` wraps with `ErrReplacingVersion`); bare `ErrNoEvents` on
an empty list; substitute the event in memory; replay the patched slice on
the supplied aggregate; only then `EventStore.Replace`.  Every failure
after the empty check is wrapped with `ErrReplacingVersion`. -/
def Repo.replaceVersionM {α : Type} (r : Repo) (aggID : String) (ops : AggOps α) (agg : α)
    (v : Nat) (e : Event) : Option GoErr × List REffect :=
  let opts := configuratorMaxVersion v
  match r.eventStore.load aggID opts.lev with
  | .error err =>
    (some (.join [ErrReplacingVersion, .join [ErrLoadingEvents, err]]),
      [.esLoad aggID opts.lev])
  | .ok events =>
    let trL : List REffect := [.esLoad aggID opts.lev]
    if events.isEmpty then (some ErrNoEvents, trL)
    else
      match replaceVersionInEventSlice events v e with
      | .error err => (some (.join [ErrReplacingVersion, err]), trL)
      | .ok patched =>
        match applyEventsM ops agg patched with
        | (some err, _, trA) => (some (.join [ErrReplacingVersion, err]), trL ++ trA)
        | (none, _, trA) =>
          match r.eventStore.replace aggID v e with
          | some err =>
            (some (.join [ErrReplacingVersion, err]), trL ++ trA ++ [.esReplace aggID v e])
          | none => (none, trL ++ trA ++ [.esReplace aggID v e])

theorem sendLoop_all_ok (qs : String → Bytes → Option GoErr) (events : List Event)
    (h : ∀ e ∈ events, qs e.type e.data = none) :
    sendLoop qs events = (none, events.map (fun e => .qSend e.type e.data)) := by
  induction events with
  | nil => rfl
  | cons e rest ih =>
    have he : qs e.type e.data = none := h e (List.mem_cons_self e rest)
    have ihr := ih (fun x hx => h x (List.mem_cons_of_mem e hx))
    simp [sendLoop, he, ihr]

theorem sendLoop_first_fail (qs : String → Bytes → Option GoErr) (pre : List Event)
    (ev : Event) (post : List Event) (err : GoErr)
    (hpre : ∀ e ∈ pre, qs e.type e.data = none)
    (hev : qs ev.type ev.data = some err) :
    sendLoop qs (pre ++ ev :: post)
      = (some (.join [ErrSendingEvent, err]),
         (pre ++ [ev]).map (fun e => .qSend e.type e.data)) := by
  induction pre with
  | nil => simp [sendLoop, hev]
  | cons p ps ih =>
    have hp : qs p.type p.data = none := hpre p (List.mem_cons_self p ps)
    have ihr := ih (fun x hx => hpre x (List.mem_cons_of_mem p hx))
    simp [sendLoop, hp, ihr]

/-- C3: `Repository.Store(ctx, events)`: with no queue configured it
returns `ErrNoQueueDefined` without calling `EventStore.Store` (empty
trace — no event becomes durable); otherwise it calls `EventStore.Store`
first; a store failure is wrapped with `ErrStoringEvents` and nothing is
published; on store success it sends each event's `(Type, Data)` in slice
order, and a send failure is wrapped with `ErrSendingEvent` while the
already-performed `esStore` effect remains in the trace and no
compensating event-store call exists — no rollback. -/
theorem repoStore_contract (es : EventStoreModel) (strat : Option SnapshotStrategyModel)
    (qs : String → Bytes → Option GoErr) (events : List Event) :
    ((Repo.mk es strat none).storeM events = (some ErrNoQueueDefined, []))
    ∧ (∀ err, es.store events = some err →
        (Repo.mk es strat (some qs)).storeM events
          = (some (.join [ErrStoringEvents, err]), [.esStore events]))
    ∧ (es.store events = none → (∀ e ∈ events, qs e.type e.data = none) →
        (Repo.mk es strat (some qs)).storeM events
          = (none, .esStore events :: events.map (fun e => .qSend e.type e.data)))
    ∧ (es.store events = none →
        ∀ pre ev post err, events = pre ++ ev :: post →
          (∀ e ∈ pre, qs e.type e.data = none) → qs ev.type ev.data = some err →
          (Repo.mk es strat (some qs)).storeM events
            = (some (.join [ErrSendingEvent, err]),
               .esStore events :: (pre ++ [ev]).map (fun e => .qSend e.type e.data))) := by
  refine ⟨rfl, ?_, ?_, ?_⟩
  · intro err herr
    simp [Repo.storeM, herr]
  · intro hok hsend
    simp [Repo.storeM, hok, sendLoop_all_ok qs events hsend]
  · intro hok pre ev post err hev hpre hfail
    subst hev
    simp [Repo.storeM, hok, sendLoop_first_fail qs pre ev post err hpre hfail]

/-- C3 witness: two events, both sends succeeding: the event store is
called first, then one send per event in order. -/
theorem repoStore_contract_witness :
    (Repo.mk (EventStoreModel.mk (fun _ _ => .ok []) (fun _ => none) (fun _ _ _ => none))
        none (some (fun _ _ => none))).storeM
        [⟨"created", [1], 0, 0, "a1"⟩, ⟨"renamed", [2], 1, 0, "a1"⟩]
      = (none,
         [.esStore [⟨"created", [1], 0, 0, "a1"⟩, ⟨"renamed", [2], 1, 0, "a1"⟩],
          .qSend "created" [1], .qSend "renamed" [2]]) :=
  (repoStore_contract
      (EventStoreModel.mk (fun _ _ => .ok []) (fun _ => none) (fun _ _ _ => none))
      none (fun _ _ => none)
      [⟨"created", [1], 0, 0, "a1"⟩, ⟨"renamed", [2], 1, 0, "a1"⟩]).2.2.1 rfl
    (fun _ _ => rfl)

/-! ### Concrete instantiations

Test doubles used to evaluate the repository model at concrete inputs, in
the role of the repository's test aggregates and fake stores. -/

/-- A small concrete aggregate state. -/
structure SimpleAgg where
  id : String
  version : Nat
  state : Bytes
deriving Repr, DecidableEq

/-- `Aggregate` operations for `SimpleAgg`: import replaces the state,
apply appends the event data and tracks the version, export returns the
state, all without errors. -/
def simpleAggOps : AggOps SimpleAgg where
  getID a := a.id
  setID a i := { a with id := i }
  getVersion a := a.version
  setVersion a v := { a with version := v }
  applyEv a e := (none, { a with version := e.version + 1, state := a.state ++ e.data })
  importState a b := (none, { a with state := b })
  exportState a := .ok a.state

/-- An event store returning a fixed event list and accepting everything. -/
def constEventStore (events : List Event) : EventStoreModel where
  load _ _ := .ok events
  store _ := none
  replace _ _ _ := none

/-- A snapshot store holding a fixed (possibly absent) snapshot. -/
def constSnapshotStore (s : Option Snapshot) : SnapshotStoreModel where
  load _ := .ok s
  store _ _ _ _ := none

/-- A snapshot at version 5 for aggregate `"a1"` with state `[1]`. -/
def s5 : Snapshot := ⟨[1], 0, 5, "a1"⟩

/-- A repository with an empty event store, a never-firing snapshot
strategy over a store holding `s`, and no queue. -/
def snapRepo (s : Option Snapshot) : Repo :=
  Repo.mk (constEventStore []) (some ⟨fun _ _ => false, some (constSnapshotStore s)⟩) none

/-- C5: the claim says that when `options.MaxVersion` is set but no
snapshot is available, `Load` does not fail or panic at the
snapshot-versus-MaxVersion check because that comparison is only made when
a snapshot exists.  In the source the comparison
`opts.lev.MaxVersion != nil && snapshot.Version > *opts.lev.MaxVersion` is
evaluated whenever `MaxVersion` is set, dereferencing the nil snapshot
pointer: `Load` panics in each of the claim's three scenarios — no
snapshot strategy configured, `skipSnapshot` requested, and a snapshot
store holding no snapshot. -/
theorem load_maxVersion_without_snapshot_panics :
    ((Repo.mk (constEventStore []) none none).loadM simpleAggOps ⟨"a1", 0, []⟩
        (some (configuratorMaxVersion 5))
      = (.panicked "runtime error: invalid memory address or nil pointer dereference", []))
    ∧ ((snapRepo (some s5)).loadM simpleAggOps ⟨"a1", 0, []⟩
        (some { lev := { maxVersion := some 5 }, skipSnapshot := true })
      = (.panicked "runtime error: invalid memory address or nil pointer dereference", []))
    ∧ ((snapRepo none).loadM simpleAggOps ⟨"a1", 0, []⟩
        (some (configuratorMaxVersion 5))
      = (.panicked "runtime error: invalid memory address or nil pointer dereference",
         [.ssLoad "a1"])) := by
  refine ⟨rfl, rfl, rfl⟩

/-- C10: `Repository.Load` writes through the caller's `RepoLoadOptions`.
Four chained evaluations:
1. a `Load` with freshly built default options against a repository whose
   store holds a snapshot at version 5 returns options whose `MinVersion`
   has been overwritten to 5 (the caller set none);
2. reusing exactly those returned options for a later `Load` (against a
   repository whose snapshot store is now empty) passes
   `MinVersion = 5` — a filter the caller never set — to
   `EventStore.Load`;
3. a `Load` with `MaxVersion = 1` below the snapshot version returns
   options whose `skipSnapshot` has been flipped to `true` (the caller set
   `false`);
4. reusing those options for a later `Load` skips the snapshot load the
   caller asked for and panics at the max-version check. -/
theorem load_mutates_caller_options :
    ((snapRepo (some s5)).loadM simpleAggOps ⟨"a1", 0, []⟩ (some defaultRepoLoadOptions)
      = (.ok (⟨"a1", 5, [1]⟩, { lev := { minVersion := some 5 } }),
         [.ssLoad "a1", .importState [1], .setVersion 5, .setID "a1",
          .esLoad "a1" { minVersion := some 5 }]))
    ∧ defaultRepoLoadOptions.lev.minVersion = none
    ∧ ((snapRepo none).loadM simpleAggOps ⟨"a1", 0, []⟩
        (some { lev := { minVersion := some 5 } })
      = (.err ErrNoEvents, [.ssLoad "a1", .esLoad "a1" { minVersion := some 5 }]))
    ∧ ((snapRepo (some s5)).loadM simpleAggOps ⟨"a1", 0, []⟩
        (some (configuratorMaxVersion 1))
      = (.ok (⟨"a1", 0, []⟩, { lev := { maxVersion := some 1 }, skipSnapshot := true }),
         [.ssLoad "a1", .esLoad "a1" { maxVersion := some 1 }]))
    ∧ (configuratorMaxVersion 1).skipSnapshot = false
    ∧ ((snapRepo (some s5)).loadM simpleAggOps ⟨"a1", 0, []⟩
        (some { lev := { maxVersion := some 1 }, skipSnapshot := true })
      = (.panicked "runtime error: invalid memory address or nil pointer dereference",
         [])) := by
  refine ⟨rfl, rfl, rfl, rfl, rfl, rfl⟩

/-- Every path through `loadRest` begins by calling `EventStore.Load` with
the aggregate's current id and the effective filter options. -/
theorem loadRest_trace_head {α : Type} (r : Repo) (ops : AggOps α) (agg : α)
    (opts : RepoLoadOptions) (snapshot : Option Snapshot) :
    ∃ res rest, r.loadRest ops agg opts snapshot
      = (res, .esLoad (ops.getID agg) opts.lev :: rest) := by
  unfold Repo.loadRest
  rcases hload : r.eventStore.load (ops.getID agg) opts.lev with e | events
  · exact ⟨_, _, rfl⟩
  · by_cases hemp : events.isEmpty && snapshot.isNone
    · simp only [hemp, if_true]
      exact ⟨_, _, rfl⟩
    · simp only [hemp, if_false, Bool.false_eq_true]
      rcases hA : applyEventsM ops agg events with ⟨oe, agg1, trA⟩
      rcases oe with _ | e2
      · rcases hstrat : r.snapshotStrategy with _ | strat
        · exact ⟨_, _, rfl⟩
        · by_cases hsk : opts.skipSnapshot
          · simp only [hsk, if_true]
            exact ⟨_, _, rfl⟩
          · simp only [hsk, if_false, Bool.false_eq_true]
            by_cases hss : strat.shouldSnapshot snapshot events
            · simp only [hss, if_true]
              rcases hG : r.generateSnapshotM ops (ops.getID agg1) agg1 with ⟨og, trS⟩
              rcases og with _ | e3
              · exact ⟨_, _, rfl⟩
              · exact ⟨_, _, rfl⟩
            · simp only [hss, if_false, Bool.false_eq_true]
              exact ⟨_, _, rfl⟩
      · exact ⟨_, _, rfl⟩

/-- C2: in `Repository.Load`, when a snapshot exists and is used (not
skipped by the caller and the max-version check evaluates to false), the
aggregate is populated from the snapshot before any event work:
`ImportState(snapshot.Data)`, then `SetVersion(snapshot.Version)`, then
`SetID(snapshot.ID)` appear in the trace ahead of the `EventStore.Load`
call, and that call receives filter options whose `MinVersion` is exactly
`snapshot.Version`; an import failure is returned joined with
`failed to load snapshot` (once inside `importState` and once more at the
call site) and stops the load. -/
theorem load_snapshot_used_contract {α : Type} (es : EventStoreModel)
    (shouldSnap : Option Snapshot → List Event → Bool)
    (ssload : String → Except GoErr (Option Snapshot))
    (ssstore : String → Bytes → Nat → String → Option GoErr)
    (q : Option (String → Bytes → Option GoErr))
    (ops : AggOps α) (agg : α) (opts : RepoLoadOptions) (s : Snapshot)
    (hskip : opts.skipSnapshot = false)
    (hload : ssload (ops.getID agg) = .ok (some s))
    (hmax : maxVerLowerCheck opts.lev.maxVersion (some s) = .ok false) :
    (∀ e agg1, ops.importState agg s.data = (some e, agg1) →
      (Repo.mk es (some ⟨shouldSnap, some ⟨ssload, ssstore⟩⟩) q).loadM ops agg (some opts)
        = (.err (.join [ErrFailedToLoadSnapshot, .join [ErrFailedToLoadSnapshot, e]]),
           [.ssLoad (ops.getID agg), .importState s.data]))
    ∧ (∀ agg1, ops.importState agg s.data = (none, agg1) →
        ∃ res rest,
          (Repo.mk es (some ⟨shouldSnap, some ⟨ssload, ssstore⟩⟩) q).loadM ops agg (some opts)
            = (res,
               .ssLoad (ops.getID agg) :: .importState s.data :: .setVersion s.version ::
                 .setID s.id ::
                 .esLoad (ops.getID (ops.setID (ops.setVersion agg1 s.version) s.id))
                   { opts.lev with minVersion := some s.version } :: rest)) := by
  constructor
  · intro e agg1 himp
    simp [Repo.loadM, Repo.snapshotLoader, importStateM, hskip, hload, hmax, himp]
  · intro agg1 himp
    obtain ⟨res, rest, hr⟩ :=
      loadRest_trace_head (Repo.mk es (some ⟨shouldSnap, some ⟨ssload, ssstore⟩⟩) q) ops
        (ops.setID (ops.setVersion agg1 s.version) s.id)
        { opts with lev := { opts.lev with minVersion := some s.version },
                    skipSnapshot := false }
        (some s)
    refine ⟨res, rest, ?_⟩
    simp [Repo.loadM, Repo.snapshotLoader, importStateM, hskip, hload, hmax, himp, hr]

/-- C2 witness: a concrete load in which the snapshot at version 5 is
imported, versioned, and identified before the event load, which receives
`MinVersion = 5`. -/
theorem load_snapshot_used_contract_witness :
    ∃ res rest,
      (Repo.mk (constEventStore []) (some ⟨fun _ _ => false, some ⟨fun _ => .ok (some s5),
          fun _ _ _ _ => none⟩⟩) none).loadM simpleAggOps ⟨"a1", 0, []⟩
          (some defaultRepoLoadOptions)
        = (res,
           .ssLoad "a1" :: .importState [1] :: .setVersion 5 :: .setID "a1" ::
             .esLoad "a1" { minVersion := some 5 } :: rest) :=
  (load_snapshot_used_contract (constEventStore []) (fun _ _ => false)
      (fun _ => .ok (some s5)) (fun _ _ _ _ => none) none simpleAggOps ⟨"a1", 0, []⟩
      defaultRepoLoadOptions s5 rfl rfl rfl).2 ⟨"a1", 0, [1]⟩ rfl

theorem replaceVersionInEventSlice_not_found (events : List Event) (v : Nat) (e : Event)
    (h : ∀ ev ∈ events, ev.version ≠ v) :
    replaceVersionInEventSlice events v e = .error ErrVersionNotFound := by
  induction events with
  | nil => rfl
  | cons ev rest ih =>
    have hv : ev.version ≠ v := h ev (List.mem_cons_self ev rest)
    have ihr := ih (fun x hx => h x (List.mem_cons_of_mem ev hx))
    simp [replaceVersionInEventSlice, hv, ihr]

theorem replaceVersionInEventSlice_found (pre : List Event) (ev : Event) (post : List Event)
    (v : Nat) (e : Event) (hpre : ∀ x ∈ pre, x.version ≠ v) (hev : ev.version = v) :
    replaceVersionInEventSlice (pre ++ ev :: post) v e = .ok (pre ++ e :: post) := by
  induction pre with
  | nil => simp [replaceVersionInEventSlice, hev]
  | cons p ps ih =>
    have hp : p.version ≠ v := hpre p (List.mem_cons_self p ps)
    have ihr := ih (fun x hx => hpre x (List.mem_cons_of_mem p hx))
    simp [replaceVersionInEventSlice, hp, ihr]

/-- C4: `Repository.ReplaceVersion(ctx, aggID, agg, v, e)`: the event load
is issued with filter options whose `MaxVersion` is `v` (first trace
conjunct); an empty load yields the bare `no events found` error; when no
loaded event carries version `v` the result is `version not found` wrapped
with `error replacing version`; when the (first) event at version `v`
exists, the in-memory substitution produces `pre ++ e :: post` — same
length, exactly that event replaced, all others unchanged — the patched
sequence is replayed on the supplied aggregate, and `EventStore.Replace`
appears in the trace exactly when the replay succeeded; a load failure and
every failure after the empty-list check are wrapped with
`error replacing version`. -/
theorem replaceVersion_contract {α : Type} (es : EventStoreModel)
    (strat : Option SnapshotStrategyModel) (q : Option (String → Bytes → Option GoErr))
    (aggID : String) (ops : AggOps α) (agg : α) (v : Nat) (e : Event) :
    (∃ tail, ((Repo.mk es strat q).replaceVersionM aggID ops agg v e).2
        = .esLoad aggID { maxVersion := some v } :: tail)
    ∧ (es.load aggID { maxVersion := some v } = .ok [] →
        (Repo.mk es strat q).replaceVersionM aggID ops agg v e
          = (some ErrNoEvents, [.esLoad aggID { maxVersion := some v }]))
    ∧ (∀ err, es.load aggID { maxVersion := some v } = .error err →
        (Repo.mk es strat q).replaceVersionM aggID ops agg v e
          = (some (.join [ErrReplacingVersion, .join [ErrLoadingEvents, err]]),
             [.esLoad aggID { maxVersion := some v }]))
    ∧ (∀ events, es.load aggID { maxVersion := some v } = .ok events → events ≠ [] →
        (∀ ev ∈ events, ev.version ≠ v) →
        (Repo.mk es strat q).replaceVersionM aggID ops agg v e
          = (some (.join [ErrReplacingVersion, ErrVersionNotFound]),
             [.esLoad aggID { maxVersion := some v }]))
    ∧ (∀ pre ev post, es.load aggID { maxVersion := some v } = .ok (pre ++ ev :: post) →
        (∀ x ∈ pre, x.version ≠ v) → ev.version = v →
        ((pre ++ e :: post).length = (pre ++ ev :: post).length
        ∧ (∀ agg1 trA, applyEventsM ops agg (pre ++ e :: post) = (none, agg1, trA) →
            (Repo.mk es strat q).replaceVersionM aggID ops agg v e
              = ((es.replace aggID v e).map (fun err => GoErr.join [ErrReplacingVersion, err]),
                 .esLoad aggID { maxVersion := some v } :: (trA ++ [.esReplace aggID v e])))
        ∧ (∀ err2 agg1 trA, applyEventsM ops agg (pre ++ e :: post) = (some err2, agg1, trA) →
            (Repo.mk es strat q).replaceVersionM aggID ops agg v e
              = (some (.join [ErrReplacingVersion, err2]),
                 .esLoad aggID { maxVersion := some v } :: trA)))) := by
  refine ⟨?_, ?_, ?_, ?_, ?_⟩
  · simp only [Repo.replaceVersionM, configuratorMaxVersion]
    rcases hl : es.load aggID { maxVersion := some v } with err | events
    · exact ⟨_, rfl⟩
    · by_cases hemp : events.isEmpty
      · simp only [hemp, if_true]
        exact ⟨_, rfl⟩
      · simp only [hemp, if_false, Bool.false_eq_true]
        rcases hrep : replaceVersionInEventSlice events v e with err | patched
        · exact ⟨_, rfl⟩
        · rcases hA : applyEventsM ops agg patched with ⟨oe, agg1, trA⟩
          rcases oe with _ | err2
          · simp only [hA]
            rcases hR : es.replace aggID v e with _ | err3
            · simp only [hR]
              exact ⟨_, rfl⟩
            · simp only [hR]
              exact ⟨_, rfl⟩
          · simp only [hA]
            exact ⟨_, rfl⟩
  · intro hl
    simp [Repo.replaceVersionM, configuratorMaxVersion, hl]
  · intro err hl
    simp [Repo.replaceVersionM, configuratorMaxVersion, hl]
  · intro events hl hne hnv
    have hemp : events.isEmpty = false := by
      cases events with
      | nil => exact absurd rfl hne
      | cons x xs => rfl
    simp [Repo.replaceVersionM, configuratorMaxVersion, hl, hemp,
      replaceVersionInEventSlice_not_found events v e hnv]
  · intro pre ev post hl hpre hev
    have hemp : (pre ++ ev :: post).isEmpty = false := by
      cases pre <;> rfl
    refine ⟨by simp, ?_, ?_⟩
    · intro agg1 trA hA
      rcases hR : es.replace aggID v e with _ | err3 <;>
        simp [Repo.replaceVersionM, configuratorMaxVersion, hl, hemp,
          replaceVersionInEventSlice_found pre ev post v e hpre hev, hA, hR]
    · intro err2 agg1 trA hA
      simp [Repo.replaceVersionM, configuratorMaxVersion, hl, hemp,
        replaceVersionInEventSlice_found pre ev post v e hpre hev, hA]

/-- C4 witness: three stored events at versions 0, 1, 2; replacing version
1 keeps the list length at 3, replays `E0, E1', E2` on the aggregate, and
then calls `EventStore.Replace`. -/
theorem replaceVersion_contract_witness :
    (Repo.mk (constEventStore
          [⟨"e0", [0], 0, 0, "a1"⟩, ⟨"e1", [1], 1, 0, "a1"⟩, ⟨"e2", [2], 2, 0, "a1"⟩])
        none none).replaceVersionM "a1" simpleAggOps ⟨"a1", 0, []⟩ 1 ⟨"e1x", [9], 1, 0, "a1"⟩
      = (none,
         [.esLoad "a1" { maxVersion := some 1 },
          .applyEv ⟨"e0", [0], 0, 0, "a1"⟩, .applyEv ⟨"e1x", [9], 1, 0, "a1"⟩,
          .applyEv ⟨"e2", [2], 2, 0, "a1"⟩, .esReplace "a1" 1 ⟨"e1x", [9], 1, 0, "a1"⟩]) := by
  have h := (replaceVersion_contract
      (constEventStore
        [⟨"e0", [0], 0, 0, "a1"⟩, ⟨"e1", [1], 1, 0, "a1"⟩, ⟨"e2", [2], 2, 0, "a1"⟩])
      none none "a1" simpleAggOps ⟨"a1", 0, []⟩ 1 ⟨"e1x", [9], 1, 0, "a1"⟩).2.2.2.2
  have h2 := (h [⟨"e0", [0], 0, 0, "a1"⟩] ⟨"e1", [1], 1, 0, "a1"⟩ [⟨"e2", [2], 2, 0, "a1"⟩]
      rfl (by decide) rfl).2.1
  exact h2 ⟨"a1", 3, [0, 9, 2]⟩
    [.applyEv ⟨"e0", [0], 0, 0, "a1"⟩, .applyEv ⟨"e1x", [9], 1, 0, "a1"⟩,
     .applyEv ⟨"e2", [2], 2, 0, "a1"⟩] rfl

end GoSignal
